import Mathlib

/-!
Shallow embedding of the soccer-shpost-llm data-collection scripts
(`reddit_scraper.py`, `dataset_merger.py`, `subredditScraper.py`).

Python strings are modelled as `List Char`.  `str.replace(pat, "")` is
modelled by `stripOcc` (left-to-right, non-overlapping removal of the
pattern, as CPython's `str.replace` does), `str.strip()` by `pyStrip`
(both-ends removal of whitespace characters), `str.lower()` by
`pyLower` (ASCII case folding; the sentinels compared against are ASCII).
Python `None` is modelled by `Option`, and a raised exception by
`Except.error`.
-/

/-- Python `str` values, modelled as lists of characters. -/
abbrev Str := List Char

/-- Python exception values (only the message matters to the scripts). -/
abbrev PyErr := String

/-- Characters removed by Python `str.strip()` (ASCII whitespace). -/
def isPySpace (c : Char) : Bool :=
  c = ' ' || c = '\t' || c = '\n' || c = '\r' || c = '\x0B' || c = '\x0C'

/-- Python `s.strip()`: remove leading and trailing whitespace. -/
def pyStrip (s : Str) : Str :=
  List.rdropWhile isPySpace (List.dropWhile isPySpace s)

/-- Python `s.lower()` on the ASCII range. -/
def pyLower (s : Str) : Str := s.map Char.toLower

/-- Fuelled worker for `stripOcc`.  Each step consumes at least one
character of the remaining input (the patterns used are non-empty), so
fuel equal to the input length always suffices. -/
def stripOccFuel (pat : Str) : Nat → Str → Str
  | _, [] => []
  | 0, s => s
  | fuel + 1, c :: rest =>
    if pat.isPrefixOf (c :: rest) then
      stripOccFuel pat fuel (rest.drop (pat.length - 1))
    else
      c :: stripOccFuel pat fuel rest

/-- Python `s.replace(pat, "")`: remove every occurrence of `pat`,
scanning left to right, non-overlapping, resuming after each removed
occurrence. -/
def stripOcc (pat s : Str) : Str := stripOccFuel pat s.length s

/-- Boolean substring test: does `pat` occur inside `s`?  (Used to state
side conditions of the sanitizer lemmas.) -/
def containsSub (pat : Str) : Str → Bool
  | [] => pat.isPrefixOf []
  | c :: rest => pat.isPrefixOf (c :: rest) || containsSub pat rest

/-- The literal `"[deleted]"`. -/
def sDeleted : Str := "[deleted]".toList

/-- The literal `"[removed]"`. -/
def sRemoved : Str := "[removed]".toList

/-- Embedding of `redact_text` (reddit_scraper.py lines 48-53):
`if not text: return ""` (both `None` and the empty string are falsy),
then remove the placeholders `"[deleted]"` and `"[removed]"` (in that
order) and strip surrounding whitespace. -/
def redact_text : Option Str → Str
  | none => []
  | some s =>
    if s.isEmpty then []
    else pyStrip (stripOcc sRemoved (stripOcc sDeleted s))

/-- A raw top-level comment node as yielded by iterating `post.comments`.
`isMore` models `isinstance(c, MoreComments)`.  `body` is the `body`
attribute (`None`/missing modelled as `none`).  `score` models
`getattr(c, "score", 0)`: `none` means the attribute is missing (the
code then uses `0`), `some none` means the attribute is Python `None`,
`some (some n)` an integer.  `created_utc` and `is_submitter` model the
corresponding `getattr` calls with defaults `None` and `False`. -/
structure RawComment where
  cid : Str
  isMore : Bool
  body : Option Str
  score : Option (Option Int)
  created_utc : Option Int
  is_submitter : Option Bool
deriving DecidableEq

/-- The dict appended to `comments` in `extract_top_comments`
(reddit_scraper.py lines 82-90). -/
structure CommentRec where
  cid : Str
  body : Str
  score : Option Int
  created_utc : Option Int
  is_submitter : Bool
deriving DecidableEq

/-- The filter applied inside the `for c in post.comments` loop
(reddit_scraper.py lines 74-81): skip `MoreComments` nodes, skip falsy
bodies (`None` or empty), skip bodies whose `strip().lower()` is
`"[deleted]"` or `"[removed]"`. -/
def keepComment (c : RawComment) : Bool :=
  if c.isMore then false
  else
    match c.body with
    | none => false
    | some b =>
      if b.isEmpty then false
      else !(pyLower (pyStrip b) = sDeleted || pyLower (pyStrip b) = sRemoved)

/-- Builds the comment record (reddit_scraper.py lines 82-90):
the body is sanitized with `redact_text`, `score` falls back to `0`
when the attribute is missing, `is_submitter` to `False`. -/
def mkRecord (c : RawComment) : CommentRec :=
  { cid := c.cid
    body := redact_text c.body
    score := c.score.getD (some 0)
    created_utc := c.created_utc
    is_submitter := c.is_submitter.getD false }

/-- The sort key of reddit_scraper.py line 94:
`x["score"] if x["score"] is not None else 0`. -/
def sortKey (r : CommentRec) : Int := r.score.getD 0

/-- One step of a stable descending insertion sort on `sortKey`:
the new element is placed after every element with a strictly larger
key and before every element with a smaller-or-equal key.  This is the
specification of Python `sorted(..., key=..., reverse=True)` (a stable
sort in which `reverse=True` does not reorder equal elements). -/
def insertScoreDesc (r : CommentRec) : List CommentRec → List CommentRec
  | [] => [r]
  | x :: xs =>
    if sortKey r < sortKey x then x :: insertScoreDesc r xs
    else r :: x :: xs

/-- Stable descending sort by `sortKey`, modelling
`sorted(comments, key=..., reverse=True)` (reddit_scraper.py lines 92-96). -/
def sortByScoreDesc : List CommentRec → List CommentRec
  | [] => []
  | c :: l => insertScoreDesc c (sortByScoreDesc l)

/-- The pure core of `extract_top_comments`: filter the materialized
comment nodes, build records, sort stably by descending score, and take
the first `top_n` (`comments[:top_n]`). -/
def selectTopComments (cs : List RawComment) (top_n : Nat) : List CommentRec :=
  (sortByScoreDesc ((cs.filter keepComment).map mkRecord)).take top_n

/-- A post handle as seen by `extract_top_comments`.  `replaceMore` is
the outcome of the provider call `post.comments.replace_more(limit=0)`;
`comments` is the outcome of iterating `post.comments` (the provider
may raise while materializing the iterator), yielding the comment nodes
present after the `replace_more` attempt. -/
structure Post where
  pid : Str
  replaceMore : Except PyErr Unit
  comments : Except PyErr (List RawComment)

/-- Embedding of `extract_top_comments` (reddit_scraper.py lines 67-97).
The `try/except` wraps only the `replace_more` call: its exception is
logged and swallowed, so the result never depends on `replaceMore`.
The subsequent `for c in post.comments` loop is outside the `try`, so
an exception raised by the iteration propagates. -/
def extract_top_comments (post : Post) (top_n : Nat) : Except PyErr (List CommentRec) :=
  let _ : Unit :=
    match post.replaceMore with
    | .ok u => u
    | .error _ => ()
  match post.comments with
  | .error e => .error e
  | .ok cs => .ok (selectTopComments cs top_n)

deriving instance DecidableEq for Except

/-- A submission handle as consumed by the `scrape_subreddit` loop.
Field values model the attribute accesses building `post_data`
(reddit_scraper.py lines 142-153): `title` is `post.title`, the rest
are `getattr` calls with defaults (`""` for `selftext`, `None` for the
others).  `replaceMore` and `comments` are the provider behaviours seen
by `extract_top_comments`; an `Except.error` in `comments` models a
provider exception raised inside the per-post `try` block. -/
structure RawPost where
  pid : Str
  title : Str
  selftext : Option Str
  score : Option Int
  created_utc : Option Int
  num_comments : Option Int
  permalink : Option Str
  replaceMore : Except PyErr Unit
  comments : Except PyErr (List RawComment)
deriving DecidableEq

/-- View of a `RawPost` as the handle passed to `extract_top_comments`. -/
def RawPost.toPost (p : RawPost) : Post :=
  ⟨p.pid, p.replaceMore, p.comments⟩

/-- The `post_data` dict (reddit_scraper.py lines 142-156), including
the extracted `top_comments`. -/
structure PostData where
  pid : Str
  title : Str
  selftext : Str
  score : Option Int
  created_utc : Option Int
  num_comments : Option Int
  permalink : Option Str
  top_comments : List CommentRec
deriving DecidableEq

/-- Removal of embedded line breaks from one comment body for the CSV
row: `c["body"].replace("\n", "").replace("\r", "")`
(reddit_scraper.py line 165). -/
def stripLineBreaks (b : Str) : Str :=
  stripOcc ['\x0D'] (stripOcc ['\x0A'] b)

/-- Flattening of the comment list into a single CSV cell, joining the
bodies with `" ||| "` (reddit_scraper.py lines 163-168). -/
def flattenComments (tcs : List CommentRec) : Str :=
  List.intercalate " ||| ".toList (tcs.map (fun c => stripLineBreaks c.body))

/-- One row appended to `rows` for the CSV export
(reddit_scraper.py lines 169-180). -/
structure CsvRow where
  pid : Str
  title : Str
  selftext : Str
  top_comments : Str
  score : Option Int
  num_comments : Option Int
  created_utc : Option Int
  permalink : Option Str
deriving DecidableEq

/-- Builds `post_data` from a post and its extracted comments. -/
def mkPostData (p : RawPost) (tcs : List CommentRec) : PostData :=
  { pid := p.pid
    title := redact_text (some p.title)
    selftext := redact_text (some (p.selftext.getD []))
    score := p.score
    created_utc := p.created_utc
    num_comments := p.num_comments
    permalink := p.permalink
    top_comments := tcs }

/-- Projects `post_data` to the CSV row appended to `rows`. -/
def mkCsvRow (d : PostData) : CsvRow :=
  { pid := d.pid
    title := d.title
    selftext := d.selftext
    top_comments := flattenComments d.top_comments
    score := d.score
    num_comments := d.num_comments
    created_utc := d.created_utc
    permalink := d.permalink }

/-- Mutable state of the `scrape_subreddit` loop: whether the JSONL
file handle is open, the lines written to it so far, the buffered CSV
rows, and the success counter. -/
structure RunState where
  fileOpen : Bool
  jsonl : List PostData
  rows : List CsvRow
  count : Nat
deriving DecidableEq

/-- State at the top of the loop: handle open, nothing written. -/
def initState : RunState := ⟨true, [], [], 0⟩

/-- One iteration of the `for post in ...` loop of `scrape_subreddit`
(reddit_scraper.py lines 137-191).  Inside the `try`: build `post_data`
and call `extract_top_comments`; a provider exception there reaches the
`except` branch, which closes the JSONL handle and continues.  When the
title is non-empty the record is written to the JSONL handle and a CSV
row is buffered; if the handle was already closed, that `write` raises
`ValueError`, which the same `except` branch catches (closing the
already-closed handle is a no-op), so nothing is written.  An empty
title is skipped silently. -/
def processPost (top_n : Nat) (st : RunState) (p : RawPost) : RunState :=
  match extract_top_comments p.toPost top_n with
  | .error _ => { st with fileOpen := false }
  | .ok tcs =>
    let data := mkPostData p tcs
    if data.title.isEmpty then st
    else if st.fileOpen then
      { fileOpen := true
        jsonl := st.jsonl ++ [data]
        rows := st.rows ++ [mkCsvRow data]
        count := st.count + 1 }
    else { st with fileOpen := false }

/-- What a run writes: the JSONL lines, the CSV table (written once at
the end from the buffered rows), and the reported count. -/
structure ScrapeOutput where
  jsonl : List PostData
  csv : List CsvRow
  count : Nat
deriving DecidableEq

/-- Embedding of `scrape_subreddit` (reddit_scraper.py lines 100-198)
after the provider supplied the post sequence: fold the per-post step
over all posts (iteration never stops early), close the handle, and
write the buffered rows as the CSV table. -/
def scrape_subreddit (posts : List RawPost) (top_n : Nat) : ScrapeOutput :=
  let final := posts.foldl (processPost top_n) initState
  ⟨final.jsonl, final.rows, final.count⟩

/-- Embedding of the merge loop of `dataset_merger.py` (lines 12-16):
starting from an empty destination, for each input file append its full
contents and then a single newline.  The input files are modelled by
their contents. -/
def mergeFiles (contents : List Str) : Str :=
  contents.foldl (fun out s => out ++ s ++ ['\x0A']) []

/-- The count reported by `dataset_merger.py` line 18: `len(files)`. -/
def mergeReportedCount (contents : List Str) : Nat := contents.length

/-- Embedding of the per-post comment selection of the minimal script
`subredditScraper.py` (line 15): `[c.body for c in submission.comments[:5]]`
— the first five nodes in provider order, bodies taken raw, with no
ranking, no filtering and no sanitization. -/
def minimalTopComments (cs : List RawComment) : List (Option Str) :=
  (cs.take 5).map RawComment.body

/-! Lemmas about the stable descending insertion sort. -/

open List

theorem sublist_insertScoreDesc (r : CommentRec) (l : List CommentRec) :
    l <+ insertScoreDesc r l := by
  induction l with
  | nil => simp [insertScoreDesc]
  | cons x xs ih =>
    by_cases h : sortKey r < sortKey x
    · simpa [insertScoreDesc, h] using ih.cons₂ x
    · simp only [insertScoreDesc, h, if_neg, not_false_iff]
      exact (List.Sublist.refl (x :: xs)).cons r

theorem perm_insertScoreDesc (r : CommentRec) (l : List CommentRec) :
    insertScoreDesc r l ~ r :: l := by
  induction l with
  | nil => rfl
  | cons x xs ih =>
    by_cases h : sortKey r < sortKey x
    · simp only [insertScoreDesc, h, if_pos]
      exact (ih.cons x).trans (List.Perm.swap r x xs)
    · simp [insertScoreDesc, h]

theorem perm_sortByScoreDesc (l : List CommentRec) : sortByScoreDesc l ~ l := by
  induction l with
  | nil => rfl
  | cons x xs ih =>
    exact (perm_insertScoreDesc x (sortByScoreDesc xs)).trans (ih.cons x)

theorem pairwise_insertScoreDesc (r : CommentRec) (l : List CommentRec)
    (h : l.Pairwise (fun a b => sortKey b ≤ sortKey a)) :
    (insertScoreDesc r l).Pairwise (fun a b => sortKey b ≤ sortKey a) := by
  induction l with
  | nil => simp [insertScoreDesc]
  | cons x xs ih =>
    rw [List.pairwise_cons] at h
    obtain ⟨hx, hxs⟩ := h
    by_cases hlt : sortKey r < sortKey x
    · simp only [insertScoreDesc, hlt, if_pos, List.pairwise_cons]
      refine ⟨fun y hy => ?_, ih hxs⟩
      rcases List.mem_cons.mp ((perm_insertScoreDesc r xs).mem_iff.mp hy) with hy' | hy'
      · subst hy'; omega
      · exact hx y hy'
    · simp only [insertScoreDesc, hlt, if_neg, not_false_iff, List.pairwise_cons]
      refine ⟨fun y hy => ?_, fun y hy => hx y hy, hxs⟩
      rcases List.mem_cons.mp hy with hy' | hy'
      · subst hy'; omega
      · have := hx y hy'
        omega

theorem pairwise_sortByScoreDesc (l : List CommentRec) :
    (sortByScoreDesc l).Pairwise (fun a b => sortKey b ≤ sortKey a) := by
  induction l with
  | nil => simp [sortByScoreDesc]
  | cons x xs ih => exact pairwise_insertScoreDesc x (sortByScoreDesc xs) ih

theorem insertScoreDesc_pair_sublist (r b : CommentRec) (l : List CommentRec)
    (hmem : b ∈ l) (hkey : ¬ sortKey r < sortKey b) :
    [r, b] <+ insertScoreDesc r l := by
  induction l with
  | nil => cases hmem
  | cons x xs ih =>
    by_cases hlt : sortKey r < sortKey x
    · simp only [insertScoreDesc, hlt, if_pos]
      rcases List.mem_cons.mp hmem with hbx | hbxs
      · exact absurd (hbx ▸ hlt) hkey
      · exact (ih hbxs).cons x
    · simp only [insertScoreDesc, hlt, if_neg, not_false_iff]
      exact (List.singleton_sublist.mpr hmem).cons₂ r

theorem stable_sortByScoreDesc (l : List CommentRec) (a b : CommentRec)
    (hsub : [a, b] <+ l) (hkey : sortKey a = sortKey b) :
    [a, b] <+ sortByScoreDesc l := by
  induction l with
  | nil => cases hsub
  | cons x xs ih =>
    cases hsub with
    | cons _ h' =>
      exact (ih h').trans (sublist_insertScoreDesc x (sortByScoreDesc xs))
    | cons₂ _ h' =>
      have hbmem : b ∈ sortByScoreDesc xs :=
        (perm_sortByScoreDesc xs).mem_iff.mpr (List.singleton_sublist.mp h')
      exact insertScoreDesc_pair_sublist a b (sortByScoreDesc xs) hbmem (by omega)

/-! Lemmas about the sanitizer. -/

theorem stripOccFuel_of_not_contains (pat : Str) :
    ∀ (fuel : Nat) (s : Str), containsSub pat s = false → stripOccFuel pat fuel s = s := by
  intro fuel
  induction fuel with
  | zero =>
    intro s _
    cases s <;> rfl
  | succ n ih =>
    intro s hs
    cases s with
    | nil => rfl
    | cons c rest =>
      have h2 : (pat.isPrefixOf (c :: rest) || containsSub pat rest) = false := hs
      rw [Bool.or_eq_false_iff] at h2
      simp only [stripOccFuel, h2.1, Bool.false_eq_true, if_neg, not_false_iff]
      rw [ih rest h2.2]

theorem stripOcc_of_not_contains (pat s : Str) (h : containsSub pat s = false) :
    stripOcc pat s = s :=
  stripOccFuel_of_not_contains pat s.length s h

theorem dropWhile_length_le {α : Type} (p : α → Bool) :
    ∀ l : List α, (List.dropWhile p l).length ≤ l.length := by
  intro l
  induction l with
  | nil => simp
  | cons c t ih =>
    cases hpc : p c with
    | false => simp [List.dropWhile_cons, hpc]
    | true =>
      simp only [List.dropWhile_cons, hpc, if_true, List.length_cons]
      omega

theorem dropWhile_rdropWhile_of_dropWhile_eq {p : Char → Bool} {l : Str}
    (h : List.dropWhile p l = l) :
    List.dropWhile p (List.rdropWhile p l) = List.rdropWhile p l := by
  have hsuf : List.dropWhile p l.reverse <:+ l.reverse := List.dropWhile_suffix p
  obtain ⟨t, ht⟩ := hsuf
  have hdec : l = List.rdropWhile p l ++ t.reverse := by
    have h2 : l.reverse.reverse = (t ++ List.dropWhile p l.reverse).reverse := by rw [ht]
    rw [List.reverse_reverse, List.reverse_append] at h2
    simpa [List.rdropWhile] using h2
  cases hR : List.rdropWhile p l with
  | nil => rfl
  | cons c rest =>
    have hl' : l = c :: (rest ++ t.reverse) := by
      rw [hdec, hR, List.cons_append]
    cases hpc : p c with
    | false => simp [List.dropWhile_cons, hpc]
    | true =>
      exfalso
      rw [hl'] at h
      simp only [List.dropWhile_cons, hpc, if_true] at h
      have hle := dropWhile_length_le p (rest ++ t.reverse)
      rw [h, List.length_cons] at hle
      omega

theorem pyStrip_idem (s : Str) : pyStrip (pyStrip s) = pyStrip s := by
  unfold pyStrip
  rw [dropWhile_rdropWhile_of_dropWhile_eq (List.dropWhile_idempotent isPySpace s),
    List.rdropWhile_idempotent]

theorem redact_text_shape (s : Option Str) :
    redact_text s = [] ∨ ∃ u, redact_text s = pyStrip u := by
  match s with
  | none => exact Or.inl rfl
  | some u =>
    by_cases hu : u.isEmpty
    · exact Or.inl (by simp [redact_text, hu])
    · exact Or.inr ⟨stripOcc sRemoved (stripOcc sDeleted u), by simp [redact_text, hu]⟩

theorem redact_text_nil : redact_text (some []) = [] := rfl

theorem redact_text_some_of_ne (t : Str) (ht : t ≠ []) :
    redact_text (some t) = pyStrip (stripOcc sRemoved (stripOcc sDeleted t)) := by
  simp [redact_text, ht]

/-! Inversion of `extract_top_comments` and auxiliary facts. -/

theorem extract_top_comments_ok_inv (post : Post) (n : Nat) (l : List CommentRec)
    (h : extract_top_comments post n = .ok l) :
    ∃ cs, post.comments = .ok cs ∧ l = selectTopComments cs n := by
  replace h :
      (match post.comments with
        | .error e => (.error e : Except PyErr (List CommentRec))
        | .ok cs => .ok (selectTopComments cs n)) = .ok l := h
  cases hc : post.comments with
  | error e =>
    rw [hc] at h
    exact Except.noConfusion h
  | ok cs =>
    rw [hc] at h
    injection h with h2
    exact ⟨cs, rfl, h2.symm⟩

/-- The exclusion condition named by the spec: body missing, empty, or
trim-lower-equal to one of the two sentinels. -/
def excludedBody (c : RawComment) : Prop :=
  c.body = none ∨ c.body = some [] ∨
    ∃ b, c.body = some b ∧
      (pyLower (pyStrip b) = sDeleted ∨ pyLower (pyStrip b) = sRemoved)

theorem keepComment_not_excluded (c : RawComment) (h : keepComment c = true) :
    ¬ excludedBody c := by
  intro hex
  rcases hex with hnone | hempty | ⟨b, hb, hsent⟩
  · simp [keepComment, hnone] at h
  · simp [keepComment, hempty] at h
  · rcases hsent with hdel | hrem
    · simp [keepComment, hb, hdel] at h
    · simp [keepComment, hb, hrem] at h

/-- Claim C1: for every post and every non-negative N, whenever
`extract_top_comments` returns a list, its length is at most N and the
scores of its elements (with an absent score counted as 0, which is the
sort key the code uses) are non-increasing from first to last. -/
theorem extract_length_le_and_scores_nonincreasing (post : Post) (n : Nat)
    (l : List CommentRec) (h : extract_top_comments post n = .ok l) :
    l.length ≤ n ∧ l.Pairwise (fun a b => sortKey b ≤ sortKey a) := by
  obtain ⟨cs, _, hl⟩ := extract_top_comments_ok_inv post n l h
  subst hl
  refine ⟨List.length_take_le n _, ?_⟩
  exact (pairwise_sortByScoreDesc _).sublist (List.take_sublist n _)

/-- Concrete comment list used by several witnesses. -/
def csW : List RawComment :=
  [⟨"c1".toList, false, some "ok".toList, some (some 5), none, none⟩,
   ⟨"c2".toList, false, some "[removed]".toList, some (some 5), none, none⟩,
   ⟨"c3".toList, false, some "best".toList, some (some 9), none, none⟩]

/-- Concrete post used by several witnesses. -/
def postW : Post := ⟨"p1".toList, .ok (), .ok csW⟩

/-- Witness for C1 at a concrete post. -/
theorem extract_length_le_and_scores_nonincreasing_witness :
    extract_top_comments postW 2 = .ok (selectTopComments csW 2) ∧
    ((selectTopComments csW 2).length ≤ 2 ∧
      (selectTopComments csW 2).Pairwise (fun a b => sortKey b ≤ sortKey a)) :=
  ⟨rfl, extract_length_le_and_scores_nonincreasing postW 2 _ rfl⟩

/-- Counterexample to claim C2 as stated: on the input
`"[remo[removed]ved]"` the first pass removes the inner `"[removed]"`
and thereby assembles a fresh `"[removed]"` out of the surrounding
characters, so a second application changes the result again. -/
theorem redact_text_not_idempotent_cex :
    redact_text (some (redact_text (some "[remo[removed]ved]".toList)))
      ≠ redact_text (some "[remo[removed]ved]".toList) := by decide

/-- Claim C2 (amended): `redact_text` is idempotent on every input
whose single-pass output contains no occurrence of `"[deleted]"` or
`"[removed]"`; in general substring removal can create a fresh
placeholder occurrence and idempotence fails. -/
theorem redact_text_idem_of_no_placeholder (s : Option Str)
    (h1 : containsSub sDeleted (redact_text s) = false)
    (h2 : containsSub sRemoved (redact_text s) = false) :
    redact_text (some (redact_text s)) = redact_text s := by
  rcases redact_text_shape s with h0 | ⟨u, hu⟩
  · rw [h0]
    rfl
  · by_cases he : redact_text s = []
    · rw [he]
      rfl
    · have hstep : redact_text (some (redact_text s))
          = pyStrip (stripOcc sRemoved (stripOcc sDeleted (redact_text s))) :=
        redact_text_some_of_ne _ he
      rw [hstep, stripOcc_of_not_contains _ _ h1, stripOcc_of_not_contains _ _ h2, hu,
        pyStrip_idem]

/-- Witness for the amended C2 at a concrete input. -/
theorem redact_text_idem_of_no_placeholder_witness :
    containsSub sDeleted (redact_text (some " hi [deleted] ".toList)) = false ∧
    containsSub sRemoved (redact_text (some " hi [deleted] ".toList)) = false ∧
    redact_text (some (redact_text (some " hi [deleted] ".toList)))
      = redact_text (some " hi [deleted] ".toList) :=
  ⟨by decide, by decide,
    redact_text_idem_of_no_placeholder _ (by decide) (by decide)⟩

/-- Post whose comment iteration raises a provider exception. -/
def postIterFail : Post := ⟨"p2".toList, .ok (), .error "provider exception"⟩

/-- Counterexample to claim C3 as stated: the `try/except` wraps only
the `replace_more` call, so a provider exception raised while iterating
`post.comments` propagates out of `extract_top_comments` instead of
degrading to a list. -/
theorem extract_top_comments_throws_cex :
    extract_top_comments postIterFail 5 = .error "provider exception" := rfl

/-- Claim C3 (amended): `extract_top_comments` swallows exceptions of
the comment-expansion call (`replace_more`) — the result is the same
`.ok` list whatever that call did — but an exception raised by the
comment iteration itself propagates. -/
theorem extract_top_comments_swallows_replace_more (pid : Str) (e : PyErr)
    (cs : List RawComment) (n : Nat) :
    extract_top_comments ⟨pid, .error e, .ok cs⟩ n = .ok (selectTopComments cs n) ∧
    extract_top_comments ⟨pid, .error e, .ok cs⟩ n
      = extract_top_comments ⟨pid, .ok (), .ok cs⟩ n :=
  ⟨rfl, rfl⟩

/-- Claim C4: every element of a list returned by
`extract_top_comments` stems from a source comment that is not
excluded: not body-missing, not body-empty, and not trim-lower-equal to
`"[deleted]"` or `"[removed]"`.  Hence no excluded comment appears in
the result. -/
theorem extract_excludes_deleted_removed (post : Post) (n : Nat)
    (l : List CommentRec) (h : extract_top_comments post n = .ok l)
    (r : CommentRec) (hr : r ∈ l) :
    ∃ cs c, post.comments = .ok cs ∧ c ∈ cs ∧ keepComment c = true ∧
      ¬ excludedBody c ∧ r = mkRecord c := by
  obtain ⟨cs, hcs, hl⟩ := extract_top_comments_ok_inv post n l h
  subst hl
  have h1 : r ∈ sortByScoreDesc ((cs.filter keepComment).map mkRecord) :=
    List.mem_of_mem_take hr
  have h2 : r ∈ (cs.filter keepComment).map mkRecord :=
    (perm_sortByScoreDesc _).mem_iff.mp h1
  obtain ⟨c, hc, hrc⟩ := List.mem_map.mp h2
  obtain ⟨hmem, hkeep⟩ := List.mem_filter.mp hc
  exact ⟨cs, c, hcs, hmem, hkeep, keepComment_not_excluded c hkeep, hrc.symm⟩

/-- Witness for C4 at a concrete post. -/
theorem extract_excludes_deleted_removed_witness :
    extract_top_comments postW 2 = .ok (selectTopComments csW 2) ∧
    mkRecord (csW.get ⟨2, by decide⟩) ∈ selectTopComments csW 2 ∧
    (∃ cs c, postW.comments = .ok cs ∧ c ∈ cs ∧ keepComment c = true ∧
      ¬ excludedBody c ∧ mkRecord (csW.get ⟨2, by decide⟩) = mkRecord c) :=
  ⟨rfl, by decide,
    extract_excludes_deleted_removed postW 2 _ rfl _ (by decide)⟩

/-- Claim C5: the score sort is stable — two retained records with
equal sort keys occur in the sorted sequence in the same relative order
as in the provider's comment sequence — and on the spec's concrete
scenario (N = 2) the extractor returns `best` then `ok`, dropping the
`[removed]` comment. -/
theorem extract_sort_stable :
    (∀ (cs : List RawComment) (a b : CommentRec),
        [a, b] <+ (cs.filter keepComment).map mkRecord → sortKey a = sortKey b →
        [a, b] <+ sortByScoreDesc ((cs.filter keepComment).map mkRecord)) ∧
    selectTopComments csW 2 =
      [⟨"c3".toList, "best".toList, some 9, none, false⟩,
       ⟨"c1".toList, "ok".toList, some 5, none, false⟩] :=
  ⟨fun _ a b h1 h2 => stable_sortByScoreDesc _ a b h1 h2, by decide⟩

/-- Two equal-score comments used by the C5 witness. -/
def csTie : List RawComment :=
  [⟨"t1".toList, false, some "first".toList, some (some 7), none, none⟩,
   ⟨"t2".toList, false, some "second".toList, some (some 7), none, none⟩]

/-- Witness for C5: applies the stability statement to two concrete
equal-score records. -/
theorem extract_sort_stable_witness :
    ([mkRecord (csTie.get ⟨0, by decide⟩), mkRecord (csTie.get ⟨1, by decide⟩)]
        <+ (csTie.filter keepComment).map mkRecord) ∧
    sortKey (mkRecord (csTie.get ⟨0, by decide⟩))
      = sortKey (mkRecord (csTie.get ⟨1, by decide⟩)) ∧
    ([mkRecord (csTie.get ⟨0, by decide⟩), mkRecord (csTie.get ⟨1, by decide⟩)]
        <+ sortByScoreDesc ((csTie.filter keepComment).map mkRecord)) :=
  ⟨by decide, by decide, extract_sort_stable.1 csTie _ _ (by decide) (by decide)⟩

/-- Comment whose body concatenates the two placeholders: it passes the
exclusion filter yet sanitizes to the empty string. -/
def cDoubled : RawComment :=
  ⟨"c0".toList, false, some "[deleted][removed]".toList, some (some 3), none, none⟩

/-- Post containing only `cDoubled`. -/
def postDoubled : Post := ⟨"p9".toList, .ok (), .ok [cDoubled]⟩

/-- Claim C9: the filter and the sanitizer are not aligned — the body
`"[deleted][removed]"` is not trim-equal to either sentinel, so the
comment is kept, yet `redact_text` maps the body to the empty string,
and `extract_top_comments` returns a record with empty sanitized
body. -/
theorem extract_returns_empty_sanitized_body :
    keepComment cDoubled = true ∧
    pyLower (pyStrip "[deleted][removed]".toList) ≠ sDeleted ∧
    pyLower (pyStrip "[deleted][removed]".toList) ≠ sRemoved ∧
    redact_text (some "[deleted][removed]".toList) = [] ∧
    extract_top_comments postDoubled 5
      = .ok [⟨"c0".toList, [], some 3, none, false⟩] := by
  refine ⟨by decide, by decide, by decide, by decide, rfl⟩

/-- Comment list showing all three divergences of the minimal script. -/
def csMini : List RawComment :=
  [⟨"m1".toList, false, some "[removed]".toList, some (some 100), none, none⟩,
   ⟨"m2".toList, false, some " hi [deleted] ".toList, some (some 1), none, none⟩,
   ⟨"m3".toList, false, some "ok".toList, some (some 9), none, none⟩]

/-- Claim C10: the minimal script records the raw bodies of the first
five comments in provider order — keeping a `[removed]` body, keeping
original order regardless of score, applying no sanitization — so its
selection differs from `extract_top_comments` with N = 5 already on
`csMini`. -/
theorem minimal_scraper_not_equivalent :
    minimalTopComments csMini
      = [some "[removed]".toList, some " hi [deleted] ".toList, some "ok".toList] ∧
    (selectTopComments csMini 5).map (fun r => some r.body)
      = [some "ok".toList, some "hi".toList] ∧
    minimalTopComments csMini ≠ (selectTopComments csMini 5).map (fun r => some r.body) := by
  refine ⟨by decide, by decide, by decide⟩

/-! Lemmas about the scraping loop. -/

/-- Invariant: every record in either sink has a non-empty title. -/
def sinkTitlesNonempty (st : RunState) : Prop :=
  (∀ d ∈ st.jsonl, d.title ≠ []) ∧ (∀ row ∈ st.rows, row.title ≠ [])

theorem processPost_preserves_titles (n : Nat) (st : RunState) (p : RawPost)
    (h : sinkTitlesNonempty st) : sinkTitlesNonempty (processPost n st p) := by
  obtain ⟨hj, hr⟩ := h
  unfold processPost
  cases extract_top_comments p.toPost n with
  | error e => exact ⟨hj, hr⟩
  | ok tcs =>
    by_cases ht : (mkPostData p tcs).title.isEmpty
    · simp only [ht, if_true]
      exact ⟨hj, hr⟩
    · by_cases hopen : st.fileOpen
      · simp only [ht, if_false, hopen, if_true, Bool.false_eq_true, not_false_iff]
        constructor
        · intro d hd
          rcases List.mem_append.mp hd with hd' | hd'
          · exact hj d hd'
          · rw [List.mem_singleton.mp hd']
            exact fun hnil => ht (List.isEmpty_iff.mpr hnil)
        · intro row hrow
          rcases List.mem_append.mp hrow with hrow' | hrow'
          · exact hr row hrow'
          · rw [List.mem_singleton.mp hrow']
            exact fun hnil => ht (List.isEmpty_iff.mpr hnil)
      · simp only [ht, if_false, hopen, Bool.false_eq_true, not_false_iff]
        exact ⟨hj, hr⟩

theorem foldl_preserves_titles (n : Nat) :
    ∀ (posts : List RawPost) (st : RunState), sinkTitlesNonempty st →
      sinkTitlesNonempty (posts.foldl (processPost n) st) := by
  intro posts
  induction posts with
  | nil => exact fun st h => h
  | cons p rest ih =>
    intro st h
    exact ih (processPost n st p) (processPost_preserves_titles n st p h)

/-- Claim C6: in every run of `scrape_subreddit`, a record whose
sanitized title is empty is written to neither the JSONL sink nor the
CSV row buffer; every written record has a non-empty sanitized
title. -/
theorem scrape_subreddit_titles_nonempty (posts : List RawPost) (n : Nat) :
    (∀ d ∈ (scrape_subreddit posts n).jsonl, d.title ≠ []) ∧
    (∀ row ∈ (scrape_subreddit posts n).csv, row.title ≠ []) :=
  foldl_preserves_titles n posts initState
    ⟨fun _ h => absurd h (List.not_mem_nil _), fun _ h => absurd h (List.not_mem_nil _)⟩

/-- Post with a sound provider and a non-empty title, used by the
witnesses of the scraping claims. -/
def pGood : RawPost :=
  ⟨"p1".toList, "A title".toList, some "body".toList, some 10, none, some 3,
    some "/r/x/1".toList, .ok (), .ok csW⟩

/-- Witness for C6 at a concrete run. -/
theorem scrape_subreddit_titles_nonempty_witness :
    mkPostData pGood (selectTopComments csW 5) ∈ (scrape_subreddit [pGood] 5).jsonl ∧
    (mkPostData pGood (selectTopComments csW 5)).title ≠ [] :=
  ⟨by decide,
    (scrape_subreddit_titles_nonempty [pGood] 5).1 _ (by decide)⟩

theorem processPost_error_closes (n : Nat) (st : RunState) (p : RawPost) (e : PyErr)
    (he : p.comments = .error e) :
    processPost n st p = { st with fileOpen := false } := by
  unfold processPost
  have hx : extract_top_comments p.toPost n = .error e := by
    replace he : p.toPost.comments = .error e := he
    rw [extract_top_comments, he]
  rw [hx]

theorem processPost_closed_id (n : Nat) (st : RunState) (p : RawPost)
    (h : st.fileOpen = false) : processPost n st p = st := by
  unfold processPost
  cases extract_top_comments p.toPost n with
  | error e =>
    cases st
    simp_all
  | ok tcs =>
    by_cases ht : (mkPostData p tcs).title.isEmpty
    · simp [ht]
    · cases st
      simp_all

theorem foldl_closed_id (n : Nat) :
    ∀ (posts : List RawPost) (st : RunState), st.fileOpen = false →
      posts.foldl (processPost n) st = st := by
  intro posts
  induction posts with
  | nil => exact fun st _ => rfl
  | cons p rest ih =>
    intro st h
    rw [List.foldl_cons, processPost_closed_id n st p h]
    exact ih st h

/-- Claim C7: once a per-post processing error occurs, the output file
handle is closed immediately and no further records reach either sink
for the remainder of the run — the outputs of the whole run equal the
outputs accumulated before the failing post — even though the fold
keeps iterating over all remaining posts. -/
theorem scrape_subreddit_abort_after_error (n : Nat) (pre : List RawPost)
    (p : RawPost) (rest : List RawPost) (e : PyErr) (he : p.comments = .error e) :
    scrape_subreddit (pre ++ p :: rest) n = scrape_subreddit pre n ∧
    ((pre ++ p :: rest).foldl (processPost n) initState).fileOpen = false := by
  have hfold : (pre ++ p :: rest).foldl (processPost n) initState
      = { pre.foldl (processPost n) initState with fileOpen := false } := by
    rw [List.foldl_append, List.foldl_cons,
      processPost_error_closes n (pre.foldl (processPost n) initState) p e he]
    exact foldl_closed_id n rest _ rfl
  constructor
  · unfold scrape_subreddit
    rw [hfold]
  · rw [hfold]

/-- Post whose provider raises during comment iteration inside the
per-post `try`. -/
def pBad : RawPost :=
  ⟨"p2".toList, "Another title".toList, none, none, none, none, none,
    .ok (), .error "boom"⟩

/-- Witness for C7: a run that fails on its first post writes nothing,
even though a healthy post follows. -/
theorem scrape_subreddit_abort_after_error_witness :
    pBad.comments = .error "boom" ∧
    scrape_subreddit ([] ++ pBad :: [pGood]) 5 = scrape_subreddit [] 5 ∧
    (([] ++ pBad :: [pGood]).foldl (processPost 5) initState).fileOpen = false :=
  ⟨rfl,
    (scrape_subreddit_abort_after_error 5 [] pBad [pGood] "boom" rfl).1,
    (scrape_subreddit_abort_after_error 5 [] pBad [pGood] "boom" rfl).2⟩

/-! Lemma about the merge utility. -/

theorem mergeFiles_foldl :
    ∀ (contents : List Str) (acc : Str),
      contents.foldl (fun out s => out ++ s ++ ['\x0A']) acc
        = acc ++ (contents.map (fun s => s ++ ['\x0A'])).flatten := by
  intro contents
  induction contents with
  | nil => simp
  | cons f rest ih =>
    intro acc
    rw [List.foldl_cons, ih, List.map_cons, List.flatten_cons]
    simp [List.append_assoc]

/-- Claim C8: the merge utility's output equals the concatenation, in
list order, of each input file's full contents followed by exactly one
newline character, and the reported merged-file count equals the number
of input files. -/
theorem mergeFiles_concat_and_count (contents : List Str) :
    mergeFiles contents = (contents.map (fun s => s ++ ['\x0A'])).flatten ∧
    mergeReportedCount contents = contents.length :=
  ⟨by unfold mergeFiles; rw [mergeFiles_foldl contents [], List.nil_append], rfl⟩

